import Mathlib

/-!
Verification of `cmd/prism/main.go`: a protocol-normalizing reverse proxy.
We shallowly embed the three JSON-rewriting components (the inbound
capability rewriter, the outbound capability injector in `ModifyResponse`)
and the readiness prober `wait`, then prove the spec's claims about them.

JSON values are modelled by the inductive `Json`; a decoded
`map[string]interface{}` is an association list `Obj` (Go maps are
unordered and duplicate-free after JSON decoding, so only key lookup is
observable; list order is an artifact of the model).
-/

set_option autoImplicit false

namespace Prism

/-- A JSON value. Go decodes numbers to float64; no claim observes numeric
arithmetic, so an integer carrier suffices for the structure. -/
inductive Json where
  | null
  | bool (b : Bool)
  | num (n : Int)
  | str (s : String)
  | arr (items : List Json)
  | obj (fields : List (String × Json))

/-- The decoded form of Go's `map[string]interface{}`. -/
abbrev Obj := List (String × Json)

/-- Key lookup, modelling `caps[key]` together with the presence bit of
`v, ok := caps[key]`. -/
def objGet : Obj → String → Option Json
  | [], _ => none
  | (k, v) :: rest, key => if k = key then some v else objGet rest key

/-- Go's built-in `delete(m, key)`: removes the entry for `key` (a no-op
when the key is absent). -/
def objDelete : Obj → String → Obj
  | [], _ => []
  | (k, v) :: rest, key =>
      if k = key then objDelete rest key else (k, v) :: objDelete rest key

/-- Go's map assignment `m[key] = v`: the map afterwards has `v` at `key`
and is unchanged elsewhere. -/
def objSet (o : Obj) (key : String) (v : Json) : Obj :=
  objDelete o key ++ [(key, v)]

/-- The comma-ok type assertion `m, ok := v.(map[string]interface{})`. -/
def asObj : Option Json → Option Obj
  | some (Json.obj m) => some m
  | _ => none

/-- Result of `json.NewDecoder(...).Decode(&caps)` for a well-formed JSON
value: JSON `null` leaves the Go map nil, a JSON object fills it, and any
other value is an unmarshal type error (`none`). -/
inductive Decoded where
  | nilMap
  | map (fields : Obj)

def decodeIntoMap : Json → Option Decoded
  | Json.null => some Decoded.nilMap
  | Json.obj fields => some (Decoded.map fields)
  | _ => none

/-! ## Inbound capability rewriter (main.go lines 76-107) -/

/-- `delete(m, "browserName"); delete(m, "version")` — legacy schema. -/
def stripLegacy (m : Obj) : Obj :=
  objDelete (objDelete m "browserName") "version"

/-- `delete(m, "browserName"); delete(m, "browserVersion")` — W3C schema. -/
def stripW3C (m : Obj) : Obj :=
  objDelete (objDelete m "browserName") "browserVersion"

/-- Lines 82-87: if `desiredCapabilities` is present and asserts to a map,
strip the legacy identity keys from it; otherwise leave `caps` alone. -/
def rewriteDesired (caps : Obj) : Obj :=
  match asObj (objGet caps "desiredCapabilities") with
  | some m => objSet caps "desiredCapabilities" (Json.obj (stripLegacy m))
  | none => caps

/-- Lines 91-96: one iteration of the loop body for a match key
(`alwaysMatch` or `firstMatch`): if present and a map, strip the W3C
identity keys inside it. -/
def rewriteMatchKey (m : Obj) (key : String) : Obj :=
  match asObj (objGet m key) with
  | some mm => objSet m key (Json.obj (stripW3C mm))
  | none => m

/-- Lines 88-99: if `capabilities` is present and asserts to a map, visit
`alwaysMatch` then `firstMatch`. -/
def rewriteW3C (caps : Obj) : Obj :=
  match asObj (objGet caps "capabilities") with
  | some m =>
      objSet caps "capabilities"
        (Json.obj (rewriteMatchKey (rewriteMatchKey m "alwaysMatch") "firstMatch"))
  | none => caps

/-- The full inbound mutation, in source order: legacy schema first, then
the W3C schema. -/
def rewriteCaps (caps : Obj) : Obj :=
  rewriteW3C (rewriteDesired caps)

/-- Outcome of the inbound handler for one request. `badRequest` is the
`http.Error(w, ..., http.StatusBadRequest)` path at line 79, after which the
handler returns without invoking the reverse proxy; `forward body` means
the reverse proxy is invoked with the re-encoded `body` (and
`r.ContentLength` set to its byte length, line 107). -/
inductive InboundResult where
  | badRequest
  | forward (body : Json)

/-- Lines 76-107. The request body is `none` when its bytes are not valid
JSON (including an empty body, where `Decode` reports `io.EOF`), otherwise
`some` of the decoded JSON value. `json.Marshal` of a nil map yields the
bytes `null`, hence the `nilMap` branch. (`json.Marshal` cannot fail on a
value produced by decoding JSON, so the line 101-105 500-path is
unreachable and not modelled.) -/
def inboundHandler (body : Option Json) : InboundResult :=
  match body with
  | none => InboundResult.badRequest
  | some j =>
      match decodeIntoMap j with
      | none => InboundResult.badRequest
      | some Decoded.nilMap => InboundResult.forward Json.null
      | some (Decoded.map caps) => InboundResult.forward (Json.obj (rewriteCaps caps))

/-! ## JSON re-encoding (json.Marshal)

Used only to express that the recomputed content length is the byte length
of the re-encoded body. Go's `json.Marshal` sorts map keys and escapes
strings; neither is observable by any claim (maps are unordered, and the
claims relate the length only to the body the model itself forwards), so
the model encodes fields in list order and strings verbatim. -/

mutual

def Json.encode : Json → String
  | Json.null => "null"
  | Json.bool true => "true"
  | Json.bool false => "false"
  | Json.num n => toString n
  | Json.str s => "\"" ++ s ++ "\""
  | Json.arr items => "[" ++ encodeItems items ++ "]"
  | Json.obj fields => "\x7b" ++ encodeFields fields ++ "\x7d"

def encodeItems : List Json → String
  | [] => ""
  | [x] => Json.encode x
  | x :: y :: rest => Json.encode x ++ "," ++ encodeItems (y :: rest)

def encodeFields : List (String × Json) → String
  | [] => ""
  | [(k, v)] => "\"" ++ k ++ "\":" ++ Json.encode v
  | (k, v) :: f :: rest =>
      "\"" ++ k ++ "\":" ++ Json.encode v ++ "," ++ encodeFields (f :: rest)

end

/-! ## Outbound capability injector (ModifyResponse, lines 112-140) -/

/-- Configured canonical browser identity (main.go lines 25-26). -/
def browserName : String := "safari"

def browserVersion : String := "13.0"

/-- The upstream response as `ModifyResponse` sees it: status code, the
pre-existing `Content-Length` header if any, the `ContentLength` field, and
the body (`none` when the body bytes are not a well-formed JSON value). -/
structure Response where
  status : Nat
  contentLengthHeader : Option Nat
  contentLength : Nat
  body : Option Json

/-- Outcome of `ModifyResponse`. `ok` returns nil with the (possibly
mutated) response; `err` returns a non-nil error, upon which
`httputil.ReverseProxy` aborts the exchange and answers the client with
502 Bad Gateway; `panicked` is the runtime panic of the single-result type
assertion at line 123. -/
inductive ModifyOutcome where
  | ok (resp : Response)
  | err
  | panicked

/-- Lines 122-131. `if o, ok := values["value"]; ok` uses comma-ok, but the
inner `if value := o.(map[string]interface{}); ok` is a single-result type
assertion guarded by the stale outer `ok`: when `value` is present and not
a JSON object (string, number, array, bool or null) it panics (`none`).
The `capabilities` lookup below it uses comma-ok and skips gracefully. -/
def injectCaps (bn bv : String) (values : Obj) : Option Obj :=
  match objGet values "value" with
  | none => some values
  | some (Json.obj value) =>
      match asObj (objGet value "capabilities") with
      | some capabilities =>
          some (objSet values "value" (Json.obj (objSet value "capabilities"
            (Json.obj (objSet (objSet capabilities "browserName" (Json.str bn))
              "browserVersion" (Json.str bv))))))
      | none => some values
  | some _ => none

/-- Lines 112-140, parameterized by the configured canonical identity. A
non-200 status returns immediately with the response untouched; a body
that does not decode into a map returns an error; otherwise the injection
runs and the body is re-encoded with the `Content-Length` header deleted
and `ContentLength` set to the new byte length. -/
def modifyResponse (bn bv : String) (resp : Response) : ModifyOutcome :=
  if resp.status ≠ 200 then ModifyOutcome.ok resp
  else
    match resp.body with
    | none => ModifyOutcome.err
    | some j =>
        match decodeIntoMap j with
        | none => ModifyOutcome.err
        | some Decoded.nilMap =>
            ModifyOutcome.ok
              { status := resp.status, contentLengthHeader := none,
                contentLength := (Json.encode Json.null).length,
                body := some Json.null }
        | some (Decoded.map values) =>
            match injectCaps bn bv values with
            | none => ModifyOutcome.panicked
            | some values2 =>
                ModifyOutcome.ok
                  { status := resp.status, contentLengthHeader := none,
                    contentLength := (Json.encode (Json.obj values2)).length,
                    body := some (Json.obj values2) }

/-! ## Readiness prober (wait, lines 29-52) -/

/-- Outcome of one `http.DefaultClient.Do` probe. `response status` means a
response arrived (any status code, error nil); `netError cancelClass`
is a `*url.Error`, with `cancelClass` true exactly when its `Err` is
`context.Canceled` or `context.DeadlineExceeded`. (`Do` wraps every failure
in `*url.Error`, and `http.NewRequest` on the fixed, valid target never
fails, so these are the only reachable outcomes.) -/
inductive ProbeOutcome where
  | response (status : Nat)
  | netError (cancelClass : Bool)
deriving DecidableEq

/-- Result of running the `wait` loop against a finite prefix of probe
outcomes: `success` returns the resolved URL, `failure` returns the
cancel-class error, `running` means the loop has consumed the whole prefix
and is still retrying. -/
inductive WaitResult where
  | success
  | failure
  | running
deriving DecidableEq

/-- The `wait` loop (lines 30-51) over a trace of probe outcomes, paired
with the total milliseconds slept: each transient failure sleeps
`<-time.After(100 * time.Millisecond)` before retrying. -/
def wait : List ProbeOutcome → WaitResult × Nat
  | [] => (WaitResult.running, 0)
  | ProbeOutcome.response _ :: _ => (WaitResult.success, 0)
  | ProbeOutcome.netError true :: _ => (WaitResult.failure, 0)
  | ProbeOutcome.netError false :: rest =>
      let r := wait rest
      (r.1, r.2 + 100)

/-! ## Map lemmas -/

theorem objGet_objDelete_self (o : Obj) (k : String) : objGet (objDelete o k) k = none := by
  induction o with
  | nil => rfl
  | cons p rest ih =>
    obtain ⟨k1, v1⟩ := p
    by_cases h : k1 = k
    · simpa [objDelete, h] using ih
    · simpa [objDelete, objGet, h] using ih

theorem objGet_objDelete_ne (o : Obj) (k key : String) (h : key ≠ k) :
    objGet (objDelete o k) key = objGet o key := by
  induction o with
  | nil => rfl
  | cons p rest ih =>
    obtain ⟨k1, v1⟩ := p
    by_cases h1 : k1 = k
    · subst h1
      simp [objDelete, objGet, Ne.symm h, ih]
    · by_cases h2 : k1 = key
      · simp [objDelete, objGet, h1, h2, h]
      · simp [objDelete, objGet, h1, h2, ih]

theorem objDelete_of_objGet_none (o : Obj) (k : String) (h : objGet o k = none) :
    objDelete o k = o := by
  induction o with
  | nil => rfl
  | cons p rest ih =>
    obtain ⟨k1, v1⟩ := p
    by_cases h1 : k1 = k
    · simp [objGet, h1] at h
    · simp only [objGet, if_neg h1] at h
      simp [objDelete, h1, ih h]

theorem objGet_objSet_self (o : Obj) (k : String) (v : Json) :
    objGet (objSet o k v) k = some v := by
  unfold objSet
  induction o with
  | nil => simp [objGet]
  | cons p rest ih =>
    obtain ⟨k1, v1⟩ := p
    by_cases h1 : k1 = k
    · simpa [objDelete, h1] using ih
    · simpa [objDelete, objGet, h1] using ih

theorem objGet_objSet_ne (o : Obj) (k key : String) (v : Json) (h : key ≠ k) :
    objGet (objSet o k v) key = objGet o key := by
  unfold objSet
  induction o with
  | nil => simp [objGet, Ne.symm h]
  | cons p rest ih =>
    obtain ⟨k1, v1⟩ := p
    by_cases h1 : k1 = k
    · subst h1
      simp [objDelete, objGet, Ne.symm h, ih]
    · by_cases h2 : k1 = key
      · simp [objDelete, objGet, h1, h2, h]
      · simp [objDelete, objGet, h1, h2, ih]

theorem asObj_eq_some {o : Option Json} {m : Obj} :
    asObj o = some m ↔ o = some (Json.obj m) := by
  cases o with
  | none => simp [asObj]
  | some j => cases j <;> simp [asObj]

/-! ## Rewrite-level lemmas -/

theorem objGet_stripLegacy_browserName (m : Obj) :
    objGet (stripLegacy m) "browserName" = none := by
  unfold stripLegacy
  rw [objGet_objDelete_ne _ _ _ (by decide)]
  exact objGet_objDelete_self _ _

theorem objGet_stripLegacy_version (m : Obj) :
    objGet (stripLegacy m) "version" = none :=
  objGet_objDelete_self _ _

theorem objGet_stripLegacy_ne (m : Obj) (key : String)
    (h1 : key ≠ "browserName") (h2 : key ≠ "version") :
    objGet (stripLegacy m) key = objGet m key := by
  unfold stripLegacy
  rw [objGet_objDelete_ne _ _ _ h2, objGet_objDelete_ne _ _ _ h1]

theorem objGet_stripW3C_browserName (m : Obj) :
    objGet (stripW3C m) "browserName" = none := by
  unfold stripW3C
  rw [objGet_objDelete_ne _ _ _ (by decide)]
  exact objGet_objDelete_self _ _

theorem objGet_stripW3C_browserVersion (m : Obj) :
    objGet (stripW3C m) "browserVersion" = none :=
  objGet_objDelete_self _ _

theorem objGet_stripW3C_ne (m : Obj) (key : String)
    (h1 : key ≠ "browserName") (h2 : key ≠ "browserVersion") :
    objGet (stripW3C m) key = objGet m key := by
  unfold stripW3C
  rw [objGet_objDelete_ne _ _ _ h2, objGet_objDelete_ne _ _ _ h1]

theorem objGet_rewriteDesired_ne (caps : Obj) (key : String)
    (h : key ≠ "desiredCapabilities") :
    objGet (rewriteDesired caps) key = objGet caps key := by
  unfold rewriteDesired
  cases hm : asObj (objGet caps "desiredCapabilities") with
  | none => rfl
  | some m => exact objGet_objSet_ne _ _ _ _ h

theorem objGet_rewriteDesired_self (caps m : Obj)
    (h : objGet caps "desiredCapabilities" = some (Json.obj m)) :
    objGet (rewriteDesired caps) "desiredCapabilities" =
      some (Json.obj (stripLegacy m)) := by
  unfold rewriteDesired
  rw [asObj_eq_some.mpr h]
  exact objGet_objSet_self _ _ _

theorem rewriteDesired_of_not_obj (caps : Obj)
    (h : asObj (objGet caps "desiredCapabilities") = none) :
    rewriteDesired caps = caps := by
  unfold rewriteDesired
  rw [h]

theorem objGet_rewriteMatchKey_ne (m : Obj) (k key : String) (h : key ≠ k) :
    objGet (rewriteMatchKey m k) key = objGet m key := by
  unfold rewriteMatchKey
  cases hm : asObj (objGet m k) with
  | none => rfl
  | some mm => exact objGet_objSet_ne _ _ _ _ h

theorem objGet_rewriteMatchKey_self_obj (m mm : Obj) (k : String)
    (h : objGet m k = some (Json.obj mm)) :
    objGet (rewriteMatchKey m k) k = some (Json.obj (stripW3C mm)) := by
  unfold rewriteMatchKey
  rw [asObj_eq_some.mpr h]
  exact objGet_objSet_self _ _ _

theorem rewriteMatchKey_of_not_obj (m : Obj) (k : String)
    (h : asObj (objGet m k) = none) :
    rewriteMatchKey m k = m := by
  unfold rewriteMatchKey
  rw [h]

theorem objGet_rewriteW3C_ne (caps : Obj) (key : String) (h : key ≠ "capabilities") :
    objGet (rewriteW3C caps) key = objGet caps key := by
  unfold rewriteW3C
  cases hm : asObj (objGet caps "capabilities") with
  | none => rfl
  | some m => exact objGet_objSet_ne _ _ _ _ h

theorem objGet_rewriteW3C_self (caps m : Obj)
    (h : objGet caps "capabilities" = some (Json.obj m)) :
    objGet (rewriteW3C caps) "capabilities" =
      some (Json.obj (rewriteMatchKey (rewriteMatchKey m "alwaysMatch") "firstMatch")) := by
  unfold rewriteW3C
  rw [asObj_eq_some.mpr h]
  exact objGet_objSet_self _ _ _

theorem rewriteW3C_of_not_obj (caps : Obj)
    (h : asObj (objGet caps "capabilities") = none) :
    rewriteW3C caps = caps := by
  unfold rewriteW3C
  rw [h]

/-- Not-an-object cases of `asObj`, packaged for reuse: if an optional JSON
value is not `some (Json.obj _)`, `asObj` rejects it. -/
theorem asObj_eq_none {o : Option Json} (h : ∀ m : Obj, o ≠ some (Json.obj m)) :
    asObj o = none := by
  cases o with
  | none => rfl
  | some j =>
    cases j with
    | obj m => exact absurd rfl (h m)
    | null => rfl
    | bool b => rfl
    | num n => rfl
    | str s => rfl
    | arr items => rfl

/-- Whatever object sits under a match key after `rewriteMatchKey` has run
on that key carries neither `browserName` nor `browserVersion`. -/
theorem objGet_rewriteMatchKey_self_strips (m mm : Obj) (k : String)
    (h : objGet (rewriteMatchKey m k) k = some (Json.obj mm)) :
    objGet mm "browserName" = none ∧ objGet mm "browserVersion" = none := by
  cases h0 : asObj (objGet m k) with
  | some a =>
    rw [objGet_rewriteMatchKey_self_obj m a k (asObj_eq_some.mp h0)] at h
    simp only [Option.some.injEq, Json.obj.injEq] at h
    subst h
    exact ⟨objGet_stripW3C_browserName _, objGet_stripW3C_browserVersion _⟩
  | none =>
    rw [rewriteMatchKey_of_not_obj m k h0] at h
    have h1 := asObj_eq_some.mpr h
    rw [h0] at h1
    exact Option.noConfusion h1

/-- Claim C1: for every inbound request whose body decodes to a JSON
object, the body forwarded to the upstream contains no `browserName` or
`version` key under `desiredCapabilities` (when `desiredCapabilities` is an
object), and no `browserName` or `browserVersion` key under
`capabilities.alwaysMatch` or `capabilities.firstMatch` (when
`capabilities` and the respective match key are objects); absence of any of
these keys beforehand is not an error (the rewrite is total) and deleting
an absent key is a no-op. -/
theorem claim_C1 (caps : Obj) :
    inboundHandler (some (Json.obj caps)) =
      InboundResult.forward (Json.obj (rewriteCaps caps))
    ∧ (∀ m : Obj,
        objGet (rewriteCaps caps) "desiredCapabilities" = some (Json.obj m) →
        objGet m "browserName" = none ∧ objGet m "version" = none)
    ∧ (∀ (c mm : Obj) (k : String),
        (k = "alwaysMatch" ∨ k = "firstMatch") →
        objGet (rewriteCaps caps) "capabilities" = some (Json.obj c) →
        objGet c k = some (Json.obj mm) →
        objGet mm "browserName" = none ∧ objGet mm "browserVersion" = none)
    ∧ (∀ (o : Obj) (k : String), objGet o k = none → objDelete o k = o) := by
  refine ⟨rfl, ?_, ?_, objDelete_of_objGet_none⟩
  · intro m hm
    rw [rewriteCaps, objGet_rewriteW3C_ne _ _ (by decide)] at hm
    cases h0 : asObj (objGet caps "desiredCapabilities") with
    | some m0 =>
      rw [objGet_rewriteDesired_self caps m0 (asObj_eq_some.mp h0)] at hm
      simp only [Option.some.injEq, Json.obj.injEq] at hm
      subst hm
      exact ⟨objGet_stripLegacy_browserName _, objGet_stripLegacy_version _⟩
    | none =>
      rw [rewriteDesired_of_not_obj caps h0] at hm
      have h1 := asObj_eq_some.mpr hm
      rw [h0] at h1
      exact Option.noConfusion h1
  · intro c mm k hk hc hcm
    rw [rewriteCaps] at hc
    cases h0 : asObj (objGet (rewriteDesired caps) "capabilities") with
    | some m0 =>
      rw [objGet_rewriteW3C_self _ m0 (asObj_eq_some.mp h0)] at hc
      simp only [Option.some.injEq, Json.obj.injEq] at hc
      subst hc
      rcases hk with rfl | rfl
      · rw [objGet_rewriteMatchKey_ne _ _ _ (by decide)] at hcm
        exact objGet_rewriteMatchKey_self_strips _ _ _ hcm
      · exact objGet_rewriteMatchKey_self_strips _ _ _ hcm
    | none =>
      rw [rewriteW3C_of_not_obj _ h0] at hc
      have h1 := asObj_eq_some.mpr hc
      rw [h0] at h1
      exact Option.noConfusion h1

/-- Witness for C1 at a concrete capability document carrying both
schemas. -/
theorem claim_C1_witness :
    objGet (stripLegacy [("browserName", Json.str "firefox"),
        ("platform", Json.str "linux")]) "browserName" = none
    ∧ objGet (stripLegacy [("browserName", Json.str "firefox"),
        ("platform", Json.str "linux")]) "version" = none :=
  (claim_C1 [("desiredCapabilities",
      Json.obj [("browserName", Json.str "firefox"),
        ("platform", Json.str "linux")])]).2.1
    (stripLegacy [("browserName", Json.str "firefox"),
      ("platform", Json.str "linux")]) (by rfl)

/-- Claim C3: the inbound rewrite preserves every key/value pair not
explicitly targeted for deletion, at every nesting level: top-level keys
other than the two schema keys keep their exact values; a
`desiredCapabilities` object keeps every key other than `browserName` and
`version`; a `capabilities` object keeps every key other than the two
match keys, and each object-valued match key keeps every key other than
`browserName` and `browserVersion`; non-object schema values pass through
untouched; and a body with neither schema key is forwarded structurally
unchanged. -/
theorem claim_C3 (caps : Obj) :
    inboundHandler (some (Json.obj caps)) =
      InboundResult.forward (Json.obj (rewriteCaps caps))
    ∧ (∀ key : String, key ≠ "desiredCapabilities" → key ≠ "capabilities" →
        objGet (rewriteCaps caps) key = objGet caps key)
    ∧ (∀ m : Obj, objGet caps "desiredCapabilities" = some (Json.obj m) →
        objGet (rewriteCaps caps) "desiredCapabilities" =
          some (Json.obj (stripLegacy m))
        ∧ ∀ key : String, key ≠ "browserName" → key ≠ "version" →
            objGet (stripLegacy m) key = objGet m key)
    ∧ (∀ j : Json, asObj (some j) = none →
        objGet caps "desiredCapabilities" = some j →
        objGet (rewriteCaps caps) "desiredCapabilities" = some j)
    ∧ (∀ m : Obj, objGet caps "capabilities" = some (Json.obj m) →
        ∃ m2 : Obj,
          objGet (rewriteCaps caps) "capabilities" = some (Json.obj m2)
          ∧ (∀ key : String, key ≠ "alwaysMatch" → key ≠ "firstMatch" →
              objGet m2 key = objGet m key)
          ∧ (∀ (k : String) (mm : Obj), (k = "alwaysMatch" ∨ k = "firstMatch") →
              objGet m k = some (Json.obj mm) →
              objGet m2 k = some (Json.obj (stripW3C mm))
              ∧ ∀ key : String, key ≠ "browserName" → key ≠ "browserVersion" →
                  objGet (stripW3C mm) key = objGet mm key)
          ∧ (∀ k : String, (k = "alwaysMatch" ∨ k = "firstMatch") →
              asObj (objGet m k) = none → objGet m2 k = objGet m k))
    ∧ (∀ j : Json, asObj (some j) = none →
        objGet caps "capabilities" = some j →
        objGet (rewriteCaps caps) "capabilities" = some j)
    ∧ (objGet caps "desiredCapabilities" = none →
        objGet caps "capabilities" = none → rewriteCaps caps = caps) := by
  refine ⟨rfl, ?_, ?_, ?_, ?_, ?_, ?_⟩
  · intro key h1 h2
    rw [rewriteCaps, objGet_rewriteW3C_ne _ _ h2, objGet_rewriteDesired_ne _ _ h1]
  · intro m h
    refine ⟨?_, fun key h1 h2 => objGet_stripLegacy_ne m key h1 h2⟩
    rw [rewriteCaps, objGet_rewriteW3C_ne _ _ (by decide),
      objGet_rewriteDesired_self caps m h]
  · intro j h0 h
    rw [rewriteCaps, objGet_rewriteW3C_ne _ _ (by decide),
      rewriteDesired_of_not_obj caps (by rw [h]; exact h0)]
    exact h
  · intro m h
    have hc1 : objGet (rewriteDesired caps) "capabilities" = some (Json.obj m) := by
      rw [objGet_rewriteDesired_ne _ _ (by decide)]
      exact h
    refine ⟨rewriteMatchKey (rewriteMatchKey m "alwaysMatch") "firstMatch",
      ?_, ?_, ?_, ?_⟩
    · rw [rewriteCaps]
      exact objGet_rewriteW3C_self _ m hc1
    · intro key h1 h2
      rw [objGet_rewriteMatchKey_ne _ _ _ h2, objGet_rewriteMatchKey_ne _ _ _ h1]
    · intro k mm hk hmm
      refine ⟨?_, fun key h1 h2 => objGet_stripW3C_ne mm key h1 h2⟩
      rcases hk with rfl | rfl
      · rw [objGet_rewriteMatchKey_ne _ _ _ (by decide)]
        exact objGet_rewriteMatchKey_self_obj m mm "alwaysMatch" hmm
      · have h2 : objGet (rewriteMatchKey m "alwaysMatch") "firstMatch" =
            some (Json.obj mm) := by
          rw [objGet_rewriteMatchKey_ne _ _ _ (by decide)]
          exact hmm
        exact objGet_rewriteMatchKey_self_obj _ mm "firstMatch" h2
    · intro k hk hnone
      rcases hk with rfl | rfl
      · rw [objGet_rewriteMatchKey_ne _ _ _ (by decide),
          rewriteMatchKey_of_not_obj m _ hnone]
      · have h2 : asObj (objGet (rewriteMatchKey m "alwaysMatch") "firstMatch") =
            none := by
          rw [objGet_rewriteMatchKey_ne _ _ _ (by decide)]
          exact hnone
        rw [rewriteMatchKey_of_not_obj _ _ h2,
          objGet_rewriteMatchKey_ne _ _ _ (by decide)]
  · intro j h0 h
    have hc1 : objGet (rewriteDesired caps) "capabilities" = some j := by
      rw [objGet_rewriteDesired_ne _ _ (by decide)]
      exact h
    rw [rewriteCaps, rewriteW3C_of_not_obj _ (by rw [hc1]; exact h0)]
    exact hc1
  · intro h1 h2
    have d : rewriteDesired caps = caps :=
      rewriteDesired_of_not_obj caps (by rw [h1]; rfl)
    rw [rewriteCaps, d, rewriteW3C_of_not_obj caps (by rw [h2]; rfl)]

/-- Witness for C3: a body with no recognized schema keys keeps its only
key untouched. -/
theorem claim_C3_witness :
    objGet (rewriteCaps [("foo", Json.str "bar")]) "foo" =
      objGet [("foo", Json.str "bar")] "foo" :=
  (claim_C3 [("foo", Json.str "bar")]).2.1 "foo" (by decide) (by decide)

/-- Claim C5: an inbound request whose body is not valid JSON gets exactly
the 400 Bad Request answer of line 79 (`InboundResult.badRequest`), and the
handler returns before the reverse proxy is invoked, so no request reaches
the upstream. -/
theorem claim_C5 : inboundHandler none = InboundResult.badRequest := rfl

/-- Claim C10: a well-formed JSON body that is not an object — an array, a
string, a number or a boolean — fails `Decode(&caps)` with an unmarshal
type error and gets the same 400-and-no-forward treatment, as does an
empty body (`Decode` reports `io.EOF`, modelled together with malformed
bodies as `none`); the literal `null` decodes successfully into a nil map
and is forwarded (as the bytes `null`). -/
theorem claim_C10 :
    (∀ b : Bool, inboundHandler (some (Json.bool b)) = InboundResult.badRequest)
    ∧ (∀ s : String, inboundHandler (some (Json.str s)) = InboundResult.badRequest)
    ∧ (∀ n : Int, inboundHandler (some (Json.num n)) = InboundResult.badRequest)
    ∧ (∀ items : List Json,
        inboundHandler (some (Json.arr items)) = InboundResult.badRequest)
    ∧ inboundHandler none = InboundResult.badRequest
    ∧ inboundHandler (some Json.null) = InboundResult.forward Json.null :=
  ⟨fun _ => rfl, fun _ => rfl, fun _ => rfl, fun _ => rfl, rfl, rfl⟩

/-- Claim C6: `ModifyResponse` returns nil immediately for any non-200
status (line 113-115): status, content-length framing and body reach the
client exactly as the upstream sent them. -/
theorem claim_C6 (bn bv : String) (resp : Response) (h : resp.status ≠ 200) :
    modifyResponse bn bv resp = ModifyOutcome.ok resp := by
  unfold modifyResponse
  rw [if_pos h]

/-- Witness for C6: a 404 with its own framing passes through untouched. -/
theorem claim_C6_witness :
    modifyResponse browserName browserVersion
      { status := 404, contentLengthHeader := some 9, contentLength := 9,
        body := some (Json.str "notfound") } =
      ModifyOutcome.ok
        { status := 404, contentLengthHeader := some 9,
          contentLength := 9, body := some (Json.str "notfound") } :=
  claim_C6 browserName browserVersion _ (by decide)

/-- Claim C9: a 200 upstream response whose body does not decode into a
map — bytes that are not well-formed JSON, or a well-formed value of the
wrong shape — makes `ModifyResponse` return a non-nil error (line 120), on
which `httputil.ReverseProxy` aborts the exchange and answers the client
502 Bad Gateway instead of any body (`ModifyOutcome.err`). The injector is
a pure function of the single exchange, so the error is local to it. -/
theorem claim_C9 (bn bv : String) (resp : Response) (h : resp.status = 200) :
    (resp.body = none → modifyResponse bn bv resp = ModifyOutcome.err)
    ∧ (∀ j : Json, resp.body = some j → decodeIntoMap j = none →
        modifyResponse bn bv resp = ModifyOutcome.err) := by
  constructor
  · intro hb
    unfold modifyResponse
    rw [if_neg (not_ne_iff.mpr h), hb]
  · intro j hb hd
    unfold modifyResponse
    rw [if_neg (not_ne_iff.mpr h), hb]
    simp only [hd]

/-- Witness for C9: a 200 response whose body is a JSON array is refused. -/
theorem claim_C9_witness :
    modifyResponse browserName browserVersion
      { status := 200, contentLengthHeader := none, contentLength := 2,
        body := some (Json.arr []) } = ModifyOutcome.err :=
  (claim_C9 browserName browserVersion _ rfl).2 (Json.arr []) rfl rfl

/-- Claim C4 concerns a 200 response whose `value` is present but not an
object. The claim says the injector takes no error or abort path and
forwards the body unmodified; the code instead executes the single-result
type assertion `value := o.(map[string]interface{})` at line 123 (guarded
by the stale `ok` of line 122) and panics. This theorem evaluates the model
at the failing input `{"value": "session-id"}` and shows the panic path is
taken. -/
theorem claim_C4_code_behavior :
    modifyResponse browserName browserVersion
      { status := 200, contentLengthHeader := none, contentLength := 0,
        body := some (Json.obj [("value", Json.str "session-id")]) } =
      ModifyOutcome.panicked := rfl

/-- When `value` and `value.capabilities` are objects, lines 122-131
overwrite the two identity keys inside `capabilities` and leave the
surrounding structure to be re-marshalled. -/
theorem injectCaps_eq (bn bv : String) (values value c : Obj)
    (h3 : objGet values "value" = some (Json.obj value))
    (h4 : objGet value "capabilities" = some (Json.obj c)) :
    injectCaps bn bv values =
      some (objSet values "value" (Json.obj (objSet value "capabilities"
        (Json.obj (objSet (objSet c "browserName" (Json.str bn))
          "browserVersion" (Json.str bv)))))) := by
  simp only [injectCaps, h3, asObj_eq_some.mpr h4]

/-- For a 200 response whose body is a JSON object, `ModifyResponse`
reduces to the injection on the decoded map followed by re-framing. -/
theorem modifyResponse_200_obj (bn bv : String) (resp : Response) (values : Obj)
    (h1 : resp.status = 200) (h2 : resp.body = some (Json.obj values)) :
    modifyResponse bn bv resp =
      match injectCaps bn bv values with
      | none => ModifyOutcome.panicked
      | some values2 =>
          ModifyOutcome.ok
            { status := resp.status, contentLengthHeader := none,
              contentLength := (Json.encode (Json.obj values2)).length,
              body := some (Json.obj values2) } := by
  unfold modifyResponse
  rw [if_neg (not_ne_iff.mpr h1), h2]
  rfl

/-- Claim C2: for every upstream response with status exactly 200 whose
body is a JSON object with `value` an object and `value.capabilities` an
object, the client sees `value.capabilities.browserName` and
`value.capabilities.browserVersion` equal to the configured canonical
strings, whatever the upstream put there; every other field of the
document, of `value`, and of `capabilities` is unchanged; and the
response is re-framed: the pre-existing content-length header is removed
and the content length is the byte length of the re-encoded body. -/
theorem claim_C2 (bn bv : String) (resp : Response) (values value c : Obj)
    (h1 : resp.status = 200)
    (h2 : resp.body = some (Json.obj values))
    (h3 : objGet values "value" = some (Json.obj value))
    (h4 : objGet value "capabilities" = some (Json.obj c)) :
    ∃ values2 value2 c2 : Obj,
      modifyResponse bn bv resp =
        ModifyOutcome.ok
          { status := 200, contentLengthHeader := none,
            contentLength := (Json.encode (Json.obj values2)).length,
            body := some (Json.obj values2) }
      ∧ objGet values2 "value" = some (Json.obj value2)
      ∧ objGet value2 "capabilities" = some (Json.obj c2)
      ∧ objGet c2 "browserName" = some (Json.str bn)
      ∧ objGet c2 "browserVersion" = some (Json.str bv)
      ∧ (∀ key : String, key ≠ "value" → objGet values2 key = objGet values key)
      ∧ (∀ key : String, key ≠ "capabilities" →
          objGet value2 key = objGet value key)
      ∧ (∀ key : String, key ≠ "browserName" → key ≠ "browserVersion" →
          objGet c2 key = objGet c key) := by
  refine ⟨objSet values "value" (Json.obj (objSet value "capabilities"
      (Json.obj (objSet (objSet c "browserName" (Json.str bn))
        "browserVersion" (Json.str bv))))),
    objSet value "capabilities" (Json.obj (objSet (objSet c "browserName"
      (Json.str bn)) "browserVersion" (Json.str bv))),
    objSet (objSet c "browserName" (Json.str bn)) "browserVersion" (Json.str bv),
    ?_, ?_, ?_, ?_, ?_, ?_, ?_, ?_⟩
  · rw [modifyResponse_200_obj bn bv resp values h1 h2,
      injectCaps_eq bn bv values value c h3 h4, h1]
  · exact objGet_objSet_self _ _ _
  · exact objGet_objSet_self _ _ _
  · rw [objGet_objSet_ne _ _ _ _ (by decide)]
    exact objGet_objSet_self _ _ _
  · exact objGet_objSet_self _ _ _
  · intro key hk
    exact objGet_objSet_ne _ _ _ _ hk
  · intro key hk
    exact objGet_objSet_ne _ _ _ _ hk
  · intro key hk1 hk2
    rw [objGet_objSet_ne _ _ _ _ hk2, objGet_objSet_ne _ _ _ _ hk1]

/-- Witness for C2 at a concrete 200 session-creation response in which
the upstream reported a different browser identity. -/
theorem claim_C2_witness :
    ∃ values2 value2 c2 : Obj,
      modifyResponse browserName browserVersion
        { status := 200, contentLengthHeader := some 64, contentLength := 64,
          body := some (Json.obj [("value", Json.obj
            [("capabilities", Json.obj [("browserName", Json.str "msedge"),
              ("browserVersion", Json.str "99")]),
             ("sessionId", Json.str "abc")])]) } =
        ModifyOutcome.ok
          { status := 200, contentLengthHeader := none,
            contentLength := (Json.encode (Json.obj values2)).length,
            body := some (Json.obj values2) }
      ∧ objGet values2 "value" = some (Json.obj value2)
      ∧ objGet value2 "capabilities" = some (Json.obj c2)
      ∧ objGet c2 "browserName" = some (Json.str browserName)
      ∧ objGet c2 "browserVersion" = some (Json.str browserVersion)
      ∧ (∀ key : String, key ≠ "value" →
          objGet values2 key = objGet [("value", Json.obj
            [("capabilities", Json.obj [("browserName", Json.str "msedge"),
              ("browserVersion", Json.str "99")]),
             ("sessionId", Json.str "abc")])] key)
      ∧ (∀ key : String, key ≠ "capabilities" →
          objGet value2 key = objGet
            [("capabilities", Json.obj [("browserName", Json.str "msedge"),
              ("browserVersion", Json.str "99")]),
             ("sessionId", Json.str "abc")] key)
      ∧ (∀ key : String, key ≠ "browserName" → key ≠ "browserVersion" →
          objGet c2 key = objGet [("browserName", Json.str "msedge"),
            ("browserVersion", Json.str "99")] key) :=
  claim_C2 browserName browserVersion _
    [("value", Json.obj
      [("capabilities", Json.obj [("browserName", Json.str "msedge"),
        ("browserVersion", Json.str "99")]),
       ("sessionId", Json.str "abc")])]
    [("capabilities", Json.obj [("browserName", Json.str "msedge"),
      ("browserVersion", Json.str "99")]),
     ("sessionId", Json.str "abc")]
    [("browserName", Json.str "msedge"), ("browserVersion", Json.str "99")]
    rfl rfl rfl rfl

/-- Claim C4's counterpart on the request side does not exist: the inbound
rewrite uses comma-ok assertions throughout. Claim C8: an array-shaped
`capabilities.firstMatch` is not a `map[string]interface{}`, so the line 92
assertion fails and the loop body is skipped; the array — elements
included — is forwarded exactly as received. -/
theorem claim_C8 (caps m : Obj) (items : List Json)
    (h1 : objGet caps "capabilities" = some (Json.obj m))
    (h2 : objGet m "firstMatch" = some (Json.arr items)) :
    ∃ m2 : Obj,
      objGet (rewriteCaps caps) "capabilities" = some (Json.obj m2)
      ∧ objGet m2 "firstMatch" = some (Json.arr items) := by
  have hc1 : objGet (rewriteDesired caps) "capabilities" = some (Json.obj m) := by
    rw [objGet_rewriteDesired_ne _ _ (by decide)]
    exact h1
  refine ⟨rewriteMatchKey (rewriteMatchKey m "alwaysMatch") "firstMatch", ?_, ?_⟩
  · rw [rewriteCaps]
    exact objGet_rewriteW3C_self _ m hc1
  · have h3 : objGet (rewriteMatchKey m "alwaysMatch") "firstMatch" =
        some (Json.arr items) := by
      rw [objGet_rewriteMatchKey_ne _ _ _ (by decide)]
      exact h2
    rw [rewriteMatchKey_of_not_obj _ _ (by rw [h3]; rfl), h3]

/-- Witness for C8: a W3C wire-protocol request whose `firstMatch` is an
array of one object keeps that array, browser keys and all. -/
theorem claim_C8_witness :
    ∃ m2 : Obj,
      objGet (rewriteCaps [("capabilities", Json.obj [("firstMatch",
        Json.arr [Json.obj [("browserName", Json.str "chrome")]])])])
        "capabilities" = some (Json.obj m2)
      ∧ objGet m2 "firstMatch" =
          some (Json.arr [Json.obj [("browserName", Json.str "chrome")]]) :=
  claim_C8 _ [("firstMatch", Json.arr [Json.obj [("browserName",
    Json.str "chrome")]])] [Json.obj [("browserName", Json.str "chrome")]]
    rfl rfl

/-- A prefix of transient (non-cancel) network failures only delays the
loop: 100ms of sleep per failed attempt, outcome unchanged. -/
theorem wait_append_trans (pre rest : List ProbeOutcome)
    (htrans : ∀ o ∈ pre, o = ProbeOutcome.netError false) :
    wait (pre ++ rest) = ((wait rest).1, (wait rest).2 + 100 * pre.length) := by
  induction pre with
  | nil => simp
  | cons o tail ih =>
    have ho : o = ProbeOutcome.netError false := htrans o (by simp)
    subst ho
    have ih2 := ih (fun o hmem => htrans o (by simp [hmem]))
    rw [List.cons_append]
    show ((wait (tail ++ rest)).1, (wait (tail ++ rest)).2 + 100) = _
    rw [ih2]
    simp only [Prod.mk.injEq, List.length_cons]
    exact ⟨trivial, by omega⟩

/-- Claim C7: `wait` succeeds on the first probe that receives any HTTP
response, whatever its status code; a `*url.Error` whose cause is
`context.Canceled` or `context.DeadlineExceeded` makes it return the error
at once; any other network failure is retried after a fixed 100ms sleep;
and the loop has no attempt bound — `n` consecutive transient failures
leave it still running after `n` sleeps of 100ms. -/
theorem claim_C7 (pre post : List ProbeOutcome) (s : Nat)
    (htrans : ∀ o ∈ pre, o = ProbeOutcome.netError false) :
    wait (pre ++ ProbeOutcome.response s :: post) =
      (WaitResult.success, 100 * pre.length)
    ∧ wait (pre ++ ProbeOutcome.netError true :: post) =
        (WaitResult.failure, 100 * pre.length)
    ∧ ∀ n : Nat, wait (List.replicate n (ProbeOutcome.netError false)) =
        (WaitResult.running, 100 * n) := by
  refine ⟨?_, ?_, ?_⟩
  · rw [wait_append_trans pre _ htrans]
    simp [wait]
  · rw [wait_append_trans pre _ htrans]
    simp [wait]
  · intro n
    induction n with
    | zero => rfl
    | succ k ih =>
      rw [List.replicate_succ]
      show ((wait (List.replicate k (ProbeOutcome.netError false))).1,
        (wait (List.replicate k (ProbeOutcome.netError false))).2 + 100) = _
      rw [ih]
      simp only [Prod.mk.injEq]
      exact ⟨trivial, by omega⟩

/-- Witness for C7: two refused connections, then a 404 response — the
prober still succeeds, after 200ms of sleeping. -/
theorem claim_C7_witness :
    wait [ProbeOutcome.netError false, ProbeOutcome.netError false,
      ProbeOutcome.response 404] = (WaitResult.success, 200) := by
  have h := (claim_C7 [ProbeOutcome.netError false, ProbeOutcome.netError false]
    [] 404 (by decide)).1
  simpa using h

end Prism
